import Mathlib

/-!
Shallow embedding of the appointment slot-computation core of the
Back_naznach booking backend (`app/services/grafik_service.py`),
together with proofs of the spec's testable properties.

Times of day are strings `"HH:MM"`; the code parses them with
`datetime.strptime(s, "%H:%M")` and formats with `strftime("%H:%M")`.
We model a parsed time as minutes after `1900-01-01 00:00` (strptime's
default date), a `Nat` in `[0, 1439]`; datetime arithmetic that can
leave the day is modelled on `Int` minutes relative to that origin.
-/

namespace Naznach

/-- Minutes of `datetime.min` (`0001-01-01 00:00`) relative to `1900-01-01 00:00`:
`date(1900,1,1).toordinal() = 693596`, so the offset is `-(693596-1)*1440`. -/
def dtMin : Int := -998776800

/-- Minutes of the last whole minute of `datetime.max` (`9999-12-31 23:59`)
relative to `1900-01-01 00:00`: `(3652059-693596)*1440 + 1439`. -/
def dtMax : Int := 4260188159

/-- Value of a list of decimal digit characters. -/
def digitsVal (cs : List Char) : Nat :=
  cs.foldl (fun a c => 10 * a + (c.toNat - 48)) 0

/-- A 1- or 2-digit decimal field, as matched by strptime's `%H`/`%M`
patterns (`2[0-3]|[0-1]\d|\d` resp. `[0-5]\d|\d`); the numeric bound is
checked by the caller. -/
def parseField2 (cs : List Char) : Option Nat :=
  if (cs.length = 1 ∨ cs.length = 2) ∧ cs.all Char.isDigit then
    some (digitsVal cs)
  else none

/-- Embedding of `datetime.strptime(s, "%H:%M")`, returning minutes after midnight.
`none` models the `ValueError` raised on any non-matching input
(wrong shape, out-of-range hour/minute, leftover characters). -/
def parseTime (s : String) : Option Nat :=
  match s.data.splitOn ':' with
  | [h, m] =>
    match parseField2 h, parseField2 m with
    | some hh, some mm =>
      if hh ≤ 23 ∧ mm ≤ 59 then some (hh * 60 + mm) else none
    | _, _ => none
  | _ => none

/-- Two-digit zero-padded decimal rendering of `n ≤ 99` (strftime zero-pads). -/
def pad2 (n : Nat) : List Char :=
  if n < 10 then ['0', Nat.digitChar n]
  else [Nat.digitChar (n / 10), Nat.digitChar (n % 10)]

/-- Render the minute-of-day `r < 1440` as `"HH:MM"`. -/
def mkTime (r : Nat) : String :=
  String.mk (pad2 (r / 60) ++ ':' :: pad2 (r % 60))

/-- Embedding of `dt.strftime("%H:%M")` for the datetime `t` minutes after `1900-01-01 00:00`
(possibly on another day): only the time of day `t mod 1440` is rendered. -/
def formatTime (t : Int) : String :=
  mkTime (t % 1440).toNat

/-- ASCII whitespace stripped by Python's `int()`. -/
def isPySpace (c : Char) : Bool :=
  c == ' ' || c == '\t' || c == '\n' || c == '\r' || c == '\x0b' || c == '\x0c'

/-- Digit run after the first digit: Python's `int()` accepts single
underscores between digits (`1_0`), not leading, trailing or doubled. -/
def pyDigitsRest : List Char → Bool
  | [] => true
  | '_' :: c :: rest => c.isDigit && pyDigitsRest rest
  | c :: rest => c.isDigit && pyDigitsRest rest

/-- Digit run accepted by `int()` after the optional sign. -/
def pyDigitsOk : List Char → Bool
  | [] => false
  | c :: rest => c.isDigit && pyDigitsRest rest

/-- Python `int(s)` on the characters of `s`: optional surrounding
whitespace, optional sign, digits with single interior underscores.
`none` models `ValueError`. -/
def pyInt (s : List Char) : Option Int :=
  let cs := ((s.dropWhile isPySpace).reverse.dropWhile isPySpace).reverse
  match cs with
  | '+' :: rest =>
    if pyDigitsOk rest then some (digitsVal (rest.filter (· != '_'))) else none
  | '-' :: rest =>
    if pyDigitsOk rest then some (-(digitsVal (rest.filter (· != '_')) : Int)) else none
  | rest =>
    if pyDigitsOk rest then some (digitsVal (rest.filter (· != '_'))) else none

/-- Proleptic Gregorian leap year, as in Python's `datetime`. -/
def isLeap (y : Nat) : Bool :=
  y % 4 == 0 && (y % 100 != 0 || y % 400 == 0)

/-- Days in a month of a year (`datetime` validation). -/
def daysInMonth (y m : Nat) : Nat :=
  if m = 2 then (if isLeap y then 29 else 28)
  else if m = 4 ∨ m = 6 ∨ m = 9 ∨ m = 11 then 30
  else 31

/-- Days before January 1 of year `y` in the proleptic Gregorian calendar. -/
def daysBeforeYear (y : Nat) : Nat :=
  365 * (y - 1) + (y - 1) / 4 - (y - 1) / 100 + (y - 1) / 400

/-- Days in year `y` before the first of month `m`. -/
def daysBeforeMonth (y m : Nat) : Nat :=
  [31, if isLeap y then 29 else 28, 31, 30, 31, 30, 31, 31, 30, 31, 30].take (m - 1)
    |>.foldl (· + ·) 0

/-- Embedding of `date(y, m, d).toordinal()`. -/
def toOrdinal (y m d : Nat) : Nat :=
  daysBeforeYear y + daysBeforeMonth y m + d

/-- Embedding of `day, month, year = map(int, date.split('.'))` followed by
`date(year, month, day).isoweekday()` (1 = Monday .. 7 = Sunday).
`none` models the `ValueError` on a malformed or out-of-range date. -/
def dateWeekday (s : String) : Option Int :=
  match s.data.splitOn '.' with
  | [ds, ms, ys] =>
    match pyInt ds, pyInt ms, pyInt ys with
    | some d, some m, some y =>
      if 1 ≤ y ∧ y ≤ 9999 ∧ 1 ≤ m ∧ m ≤ 12 ∧ 1 ≤ d ∧
          d ≤ (daysInMonth y.toNat m.toNat : Int) then
        some (((toOrdinal y.toNat m.toNat d.toNat - 1) % 7 + 1 : Nat) : Int)
      else none
    | _, _, _ => none
  | _ => none

/-- Python truthiness of an optional string (`None` and `""` are falsy). -/
def truthyStr : Option String → Option String
  | some s => if s = "" then none else some s
  | none => none

/-- Python truthiness of an optional list (`None` and `[]` are falsy). -/
def truthyList : Option (List String) → Option (List String)
  | some l => if l = [] then none else some l
  | none => none

/-- Python truthiness of an optional int (`None` and `0` are falsy). -/
def truthyInt : Option Int → Option Int
  | some v => if v = 0 then none else some v
  | none => none

/-- Python `x or default` for an optional int (`None` and `0` fall through). -/
def pyOr (o : Option Int) (dflt : Int) : Int :=
  match truthyInt o with
  | some v => v
  | none => dflt

/-! ## Data model (`app/models/grafik.py`, `app/models/appointments.py`,
`app/models/service.py`), restricted to the columns the slot computation reads. -/

/-- A row of the `grafik` table. -/
structure Grafik where
  specialist_id : String
  day_of_week : Option Int
  specific_date : Option String
  grafik_type : String
  start_time : Option String
  end_time : Option String
  time_slots : Option (List String)
  deriving DecidableEq, Repr

/-- A row of the `service` table (only the duration is read). -/
structure Service where
  duration : Option Int
  deriving DecidableEq, Repr

/-- A row of the `appointments` table (only the columns the busy-interval
query reads); `service` is the loaded relationship, `None` when unset. -/
structure Appointment where
  specialist_id : String
  date : String
  time : String
  service : Option Service
  deriving DecidableEq, Repr

/-- The database contents seen by one request, rows in result-set order. -/
structure Env where
  grafiks : List Grafik
  appointments : List Appointment
  deriving DecidableEq, Repr

/-- SQLAlchemy `Result.scalar_one_or_none()`: `None` on no row, the row if
unique, raises `MultipleResultsFound` (modelled as `.error`) otherwise. -/
def scalarOneOrNone (l : List Grafik) : Except Unit (Option Grafik) :=
  match l with
  | [] => .ok none
  | [g] => .ok (some g)
  | _ => .error ()

/-! ## `GrafikService` (`app/services/grafik_service.py`) -/

/-- Embedding of `_get_grafik_by_day_date_and_type`: if `specific_date` is truthy, filter by
`(specialist_id, specific_date, grafik_type)`, else by
`(specialist_id, day_of_week, grafik_type)`, and take the unique row. -/
def get_grafik_by_day_date_and_type (env : Env) (sid : String)
    (day_of_week : Option Int) (specific_date : Option String)
    (grafik_type : String) : Except Unit (Option Grafik) :=
  match truthyStr specific_date with
  | some d =>
    scalarOneOrNone (env.grafiks.filter (fun g =>
      g.specialist_id == sid && g.specific_date == some d &&
        g.grafik_type == grafik_type))
  | none =>
    scalarOneOrNone (env.grafiks.filter (fun g =>
      g.specialist_id == sid && g.day_of_week == day_of_week &&
        g.grafik_type == grafik_type))

/-- The two-step lookup of `get_available_time_slots` for one rule kind:
by exact date first, by weekday only if that found nothing. -/
def resolveGrafik (env : Env) (sid date : String) (weekday : Int)
    (grafik_type : String) : Except Unit (Option Grafik) := do
  let g1 ← get_grafik_by_day_date_and_type env sid none (some date) grafik_type
  match g1 with
  | some g => pure (some g)
  | none => get_grafik_by_day_date_and_type env sid (some weekday) none grafik_type

/-- The loop of `_generate_time_slots` on minute values:
`while current + d <= e: emit current; current += d`.  Structural recursion
on an explicit iteration bound, so that terms reduce definitionally. -/
def genGridAux : Nat → Nat → Nat → Nat → List Nat
  | 0, _, _, _ => []
  | fuel + 1, e, d, c => if c + d ≤ e then c :: genGridAux fuel e d (c + d) else []

/-- The grid loop of `_generate_time_slots` for a positive step `d`; the
bound `e + 1 - c` covers every iteration of the loop because `current`
starts at `c` and strictly grows by `d ≥ 1` while `current + d ≤ e`
(`genGridAux_formula` below proves any sufficient bound gives the grid). -/
def genGrid (e d c : Nat) : List Nat :=
  genGridAux (e + 1 - c) e d c

/-- Embedding of `_generate_time_slots(start_time, end_time, duration_minutes)`.

`none` models non-termination: with `d = 0` and `start ≤ end` the Python
`while` condition `current + timedelta(0) <= end` never changes and the
loop never exits.  The other branches mirror the source:
* unparseable `start_time`/`end_time`: `strptime` raises, the
  `except` branch returns `[]`;
* `d > 0`: the loop emits the grid and formats each value (an
  `OverflowError` is possible only on the first test, when `d` exceeds
  `dtMax - start`; the `except` branch then returns `[]`, which equals the
  grid, empty because `start + d > end` as well);
* `d < 0`: either the first test already fails (`start + d > end`, loop
  returns `[]`) or `current` decreases monotonically until
  `current + timedelta(d)` underflows `datetime.min`, the condition raises
  `OverflowError` and the `except` branch returns `[]` — always `[]`. -/
def generate_time_slots (start_time end_time : String) (d : Int) :
    Option (List String) :=
  match parseTime start_time, parseTime end_time with
  | some s, some e =>
    if 0 < d then some ((genGrid e d.toNat s).map (fun c => formatTime c))
    else if d = 0 then (if s ≤ e then none else some [])
    else some []
  | _, _ => some []

/-- The appointments returned by the busy-interval query:
`specialist_id == sid AND date == date`, in table order. -/
def matchingApps (env : Env) (sid date : String) : List Appointment :=
  env.appointments.filter (fun a => a.specialist_id == sid && a.date == date)

/-- Duration used for an appointment's busy interval: the linked service's
duration when the relationship is loaded and the value truthy, else 60. -/
def effDuration (a : Appointment) : Int :=
  match a.service with
  | some s =>
    match truthyInt s.duration with
    | some dd => dd
    | none => 60
  | none => 60

/-- Body of the `_get_busy_time_intervals` loop. `none` models an exception
(`strptime` on a malformed appointment time, or `OverflowError` when
`start + duration` leaves the datetime range), which makes the whole
function return `[]`. -/
def busyAux : List Appointment → Option (List (String × String))
  | [] => some []
  | a :: rest =>
    match parseTime a.time with
    | none => none
    | some t =>
      let e : Int := (t : Int) + effDuration a
      if e < dtMin ∨ dtMax < e then none
      else (busyAux rest).map (fun l => (formatTime (t : Int), formatTime e) :: l)

/-- Embedding of `_get_busy_time_intervals(specialist_id, date)`: the `(start, end)` string
pairs of the matching appointments; `[]` if any raises. -/
def get_busy_time_intervals (env : Env) (sid date : String) :
    List (String × String) :=
  (busyAux (matchingApps env sid date)).getD []

/-- Inner loop of `_filter_overlapping_slots` over the busy intervals, with
`break` on the first overlap. `none` models a `strptime` exception on a
malformed busy-interval string. -/
def checkBusy (cs : Nat) (ce : Int) : List (String × String) → Option Bool
  | [] => some false
  | (bs, be) :: rest =>
    match parseTime bs, parseTime be with
    | some b1, some b2 =>
      if cs < b2 ∧ (b1 : Int) < ce then some true
      else checkBusy cs ce rest
    | _, _ => none

/-- Outer loop of `_filter_overlapping_slots` over the candidate slots.
`none` models an exception (malformed slot or busy string, or overflow of
`slot + duration`), which makes the function return the slots unfiltered. -/
def filterAux (busy : List (String × String)) (d : Int) :
    List String → Option (List String)
  | [] => some []
  | c :: rest =>
    match parseTime c with
    | none => none
    | some cs =>
      let ce : Int := (cs : Int) + d
      if ce < dtMin ∨ dtMax < ce then none
      else
        match checkBusy cs ce busy with
        | none => none
        | some overlap =>
          (filterAux busy d rest).map (fun l => if overlap then l else c :: l)

/-- Embedding of `_filter_overlapping_slots(slots, busy_intervals, service_duration)`:
keep the candidates whose `[c, c+d)` interval meets no busy interval; on any
exception the `except` branch returns the input `slots` unchanged. -/
def filter_overlapping_slots (slots : List String)
    (busy : List (String × String)) (d : Int) : List String :=
  (filterAux busy d slots).getD slots

/-- The work-schedule branch of `get_available_time_slots` once the
`work_schedule` lookup has produced `og`: generate slots when the rule has
truthy times and the service duration is truthy, otherwise give up
(`none` = the early `return []`). -/
def workSlots (og : Option Grafik) (service_duration : Option Int) :
    Option (List String) :=
  match og with
  | some w =>
    match truthyStr w.start_time, truthyStr w.end_time,
        truthyInt service_duration with
    | some st, some et, some d => some ((generate_time_slots st et d).getD [])
    | _, _, _ => none
  | none => none

/-- Steps 1–2 of `get_available_time_slots`: resolve the defined slots.
`.ok none` is the early `return []` (no usable rule), `.ok (some l)` the
defined candidate list, `.error` a raised lookup exception. -/
def resolveDefinedSlots (env : Env) (sid date : String) (weekday : Int)
    (service_duration : Option Int) : Except Unit (Option (List String)) := do
  let grafik ← resolveGrafik env sid date weekday "available_slots"
  match grafik.bind (fun g => truthyList g.time_slots) with
  | some ts => pure (some ts)
  | none =>
    -- the truthiness guard on the duration rules out `d = 0`, the only
    -- input on which `_generate_time_slots` diverges
    let wg ← resolveGrafik env sid date weekday "work_schedule"
    pure (workSlots wg service_duration)

/-- Step 3 of `get_available_time_slots`: given the resolved defined slots
(`none` = early `return []`), filter against the busy intervals with
duration `service_duration or 60`. -/
def finalStep (env : Env) (sid date : String) (sd : Option Int)
    (r : Option (List String)) : Except Unit (List String) :=
  match r with
  | none => .ok []
  | some defined =>
    .ok (filter_overlapping_slots defined (get_busy_time_intervals env sid date)
      (pyOr sd 60))

/-- Embedding of `get_available_time_slots(specialist_id, date, day_of_week,
service_duration)`: parse the date (raising on a malformed one), resolve the
rule with `available_slots` preferred and exact date before weekday, then
filter the defined slots against the busy intervals with duration
`service_duration or 60`. -/
def get_available_time_slots (env : Env) (sid date : String)
    (day_of_week service_duration : Option Int) : Except Unit (List String) :=
  match dateWeekday date with
  | none => .error ()
  | some cw =>
    let weekday : Int := pyOr day_of_week cw
    match resolveDefinedSlots env sid date weekday service_duration with
    | .error e => .error e
    | .ok none => .ok []
    | .ok (some defined) =>
      .ok (filter_overlapping_slots defined (get_busy_time_intervals env sid date)
        (pyOr service_duration 60))

/-! ## Derived notions used by the statements -/

/-- The minute value of an appointment's start time (0 when unparseable;
statements using it always require `(parseTime a.time).isSome`). -/
def timeOf (a : Appointment) : Nat :=
  (parseTime a.time).getD 0

/-- The overlap condition the composed code actually tests a candidate `c`
against an appointment `a` with: the busy end has been formatted with
`strftime("%H:%M")` and re-parsed, so the booking's end is taken modulo
24 hours, while the candidate's end `c + d` is not. -/
def overlapsWrapped (d : Int) (a : Appointment) (c : String) : Bool :=
  match parseTime c, parseTime a.time with
  | some cm, some t =>
    decide ((t : Int) < (cm : Int) + d) &&
      decide ((cm : Int) < ((t : Int) + effDuration a) % 1440)
  | _, _ => false

/-- Copy of `env` with every `work_schedule` rule of specialist `sid` removed. -/
def dropWorkRules (env : Env) (sid : String) : Env :=
  { env with grafiks := env.grafiks.filter (fun g =>
      !(g.specialist_id == sid && g.grafik_type == "work_schedule")) }

/-- Copy of `env` with every weekday-scoped (falsy `specific_date`) rule of
specialist `sid` and kind `t` removed. -/
def dropWeekdayRules (env : Env) (sid t : String) : Env :=
  { env with grafiks := env.grafiks.filter (fun g =>
      !(g.specialist_id == sid && g.grafik_type == t &&
        truthyStr g.specific_date == none)) }

/-! ## Concrete environments for witnesses and counterexamples.
`"06.10.2025"` is a Monday (ISO weekday 1). -/

/-- An appointment whose busy interval crosses midnight: 23:30 + 60 min. -/
def aMid : Appointment :=
  { specialist_id := "s1", date := "06.10.2025", time := "23:30",
    service := some (Service.mk (some 60)) }

/-- Environment with only the midnight-crossing appointment. -/
def envMid : Env := { grafiks := [], appointments := [aMid] }

/-- An appointment at 10:00 for a 30-minute service. -/
def aTen : Appointment :=
  { specialist_id := "s1", date := "06.10.2025", time := "10:00",
    service := some (Service.mk (some 30)) }

/-- Environment with one 10:00 appointment and no rules. -/
def envTen : Env := { grafiks := [], appointments := [aTen] }

/-- Monday `available_slots` rule whose `time_slots` list is empty (the
column is nullable and updates bypass the create-time validator). -/
def gEmptySlots : Grafik :=
  { specialist_id := "s1", day_of_week := some 1, specific_date := none,
    grafik_type := "available_slots", start_time := none, end_time := none,
    time_slots := some [] }

/-- Monday 09:00–11:00 `work_schedule` rule. -/
def gWork : Grafik :=
  { specialist_id := "s1", day_of_week := some 1, specific_date := none,
    grafik_type := "work_schedule", start_time := some "09:00",
    end_time := some "11:00", time_slots := none }

/-- Both kinds exist for the same specialist and weekday, but the
`available_slots` rule has an empty slot list. -/
def envBothKinds : Env :=
  { grafiks := [gEmptySlots, gWork], appointments := [] }

/-- Only the empty-list `available_slots` rule. -/
def envAvailOnly : Env :=
  { grafiks := [gEmptySlots], appointments := [] }

/-- Monday `available_slots` rule with slots 10:00 and 14:00. -/
def gAvail : Grafik :=
  { specialist_id := "s1", day_of_week := some 1, specific_date := none,
    grafik_type := "available_slots", start_time := none, end_time := none,
    time_slots := some ["10:00", "14:00"] }

/-- Both kinds exist and the `available_slots` rule has a nonempty list. -/
def envAvailWork : Env :=
  { grafiks := [gAvail, gWork], appointments := [aTen] }

/-- An `available_slots` rule scoped to the exact date 06.10.2025. -/
def gAvailDate : Grafik :=
  { specialist_id := "s1", day_of_week := none, specific_date := some "06.10.2025",
    grafik_type := "available_slots", start_time := none, end_time := none,
    time_slots := some ["12:00"] }

/-- A specific-date rule and a conflicting weekday rule of the same kind. -/
def envDateAndDay : Env :=
  { grafiks := [gAvailDate, gAvail], appointments := [] }

/-- Monday `work_schedule` rule whose `start_time` is not a valid
`"HH:MM"` string. -/
def gBadStart : Grafik :=
  { specialist_id := "s1", day_of_week := some 1, specific_date := none,
    grafik_type := "work_schedule", start_time := some "9am",
    end_time := some "18:00", time_slots := none }

/-- Environment with only the malformed `work_schedule` rule. -/
def envBadStart : Env := { grafiks := [gBadStart], appointments := [] }

/-- Environment with no rows at all. -/
def envEmpty : Env := { grafiks := [], appointments := [] }

/-- A Tuesday-only `work_schedule` rule: it exists, but matches neither the
specific date 06.10.2025 nor its weekday (Monday). -/
def gTueWork : Grafik :=
  { specialist_id := "s1", day_of_week := some 2, specific_date := none,
    grafik_type := "work_schedule", start_time := some "09:00",
    end_time := some "18:00", time_slots := none }

/-- Environment whose only rule matches neither the queried date nor its
weekday. -/
def envTueOnly : Env := { grafiks := [gTueWork], appointments := [] }

/-- Two `available_slots` rules for the same specialist and date. -/
def envDupDate : Env :=
  { grafiks := [gAvailDate, { gAvailDate with time_slots := some ["13:00"] }],
    appointments := [] }

/-- Scenario A: a Monday 09:00–18:00 `work_schedule` rule and no bookings. -/
def envScenA : Env :=
  { grafiks := [{ specialist_id := "s1", day_of_week := some 1, specific_date := none,
                  grafik_type := "work_schedule", start_time := some "09:00",
                  end_time := some "18:00", time_slots := none }],
    appointments := [] }

deriving instance DecidableEq for Except

/-! ## Basic lemmas about the grid loop -/

/-- With a positive step, any sufficient iteration bound yields the
arithmetic grid `c, c+d, …` of `⌊(e-c)/d⌋` elements. -/
theorem genGridAux_formula (d : Nat) (hd : 0 < d) :
    ∀ (fuel e c : Nat), e + 1 - c ≤ fuel →
      genGridAux fuel e d c = (List.range ((e - c) / d)).map (fun k => c + k * d) := by
  intro fuel
  induction fuel with
  | zero =>
    intro e c h
    have h0 : e - c = 0 := by omega
    simp [genGridAux, h0]
  | succ n ih =>
    intro e c h
    by_cases hc : c + d ≤ e
    · have h1 : d ≤ e - c := by omega
      rw [genGridAux, if_pos hc, ih e (c + d) (by omega)]
      rw [Nat.div_eq_sub_div hd h1]
      have h2 : (e - c) - d = e - (c + d) := by omega
      rw [← h2, List.range_succ_eq_map]
      simp only [List.map_cons, List.map_map, Nat.zero_mul, Nat.add_zero,
        List.cons.injEq, true_and]
      apply List.map_congr_left
      intro k _
      simp [Function.comp]
      ring
    · have h0 : (e - c) / d = 0 := Nat.div_eq_of_lt (by omega)
      rw [genGridAux, if_neg hc, h0]
      rfl

/-- The loop of `_generate_time_slots` computes the arithmetic grid. -/
theorem genGrid_formula (e d c : Nat) (hd : 0 < d) :
    genGrid e d c = (List.range ((e - c) / d)).map (fun k => c + k * d) :=
  genGridAux_formula d hd _ e c (Nat.le_refl _)

/-- Every grid element lies in `[c, e - d]`: the slot fits before closing. -/
theorem genGrid_mem_bounds (e d c x : Nat) (hd : 0 < d)
    (hx : x ∈ genGrid e d c) : c ≤ x ∧ x + d ≤ e := by
  rw [genGrid_formula e d c hd] at hx
  obtain ⟨k, hk, rfl⟩ := List.mem_map.mp hx
  rw [List.mem_range] at hk
  have h1 : k + 1 ≤ (e - c) / d := hk
  have h2 : (k + 1) * d ≤ ((e - c) / d) * d := Nat.mul_le_mul_right d h1
  have h3 : ((e - c) / d) * d ≤ e - c := Nat.div_mul_le_self _ _
  constructor
  · omega
  · have : (k + 1) * d ≤ e - c := le_trans h2 h3
    have : k * d + d ≤ e - c := by
      have hkd : (k + 1) * d = k * d + d := by ring
      omega
    omega

/-- The grid has `⌊(e-c)/d⌋` slots. -/
theorem genGrid_length (e d c : Nat) (hd : 0 < d) :
    (genGrid e d c).length = (e - c) / d := by
  rw [genGrid_formula e d c hd]
  simp

/-- C2. WorkHours grid generation: for a rule whose times parse to
`start ≤ end` and a duration `d > 0`, `_generate_time_slots` returns
exactly the `⌊(end-start)/d⌋` slots `start, start+d, …` (each rendered
`"HH:MM"`), every slot `s` satisfies `start ≤ s` and `s + d ≤ end` (so no
slot past closing is emitted), and Scenario A — `WorkHours{09:00,18:00}`,
duration 60, no bookings — yields the nine slots 09:00 … 17:00 with 18:00
excluded. -/
theorem workhours_grid_exact (st et : String) (s e : Nat) (d : Int)
    (hs : parseTime st = some s) (he : parseTime et = some e)
    (hse : s ≤ e) (hd : 0 < d) :
    generate_time_slots st et d =
        some (((List.range ((e - s) / d.toNat)).map (fun k => s + k * d.toNat)).map
          (fun c => formatTime (c : Int)))
      ∧ (∀ x ∈ genGrid e d.toNat s, s ≤ x ∧ x + d.toNat ≤ e)
      ∧ (genGrid e d.toNat s).length = (e - s) / d.toNat
      ∧ get_available_time_slots envScenA "s1" "06.10.2025" none (some 60) =
          .ok ["09:00", "10:00", "11:00", "12:00", "13:00", "14:00", "15:00",
               "16:00", "17:00"] := by
  have hdn : 0 < d.toNat := by omega
  refine ⟨?_, ?_, genGrid_length e d.toNat s hdn, by decide⟩
  · simp only [generate_time_slots, hs, he, if_pos hd,
      genGrid_formula e d.toNat s hdn]
  · intro x hx
    exact genGrid_mem_bounds e d.toNat s x hdn hx

/-- Closed instance of `workhours_grid_exact` (Scenario A through the full
pipeline, all hypotheses discharged at 09:00/18:00/60). -/
theorem workhours_grid_exact_witness :
    get_available_time_slots envScenA "s1" "06.10.2025" none (some 60) =
      .ok ["09:00", "10:00", "11:00", "12:00", "13:00", "14:00", "15:00",
           "16:00", "17:00"] :=
  (workhours_grid_exact "09:00" "18:00" 540 1080 60 rfl rfl (by decide)
    (by decide)).2.2.2

/-! ## Lemmas about the rule lookup -/

/-- Filtering with a stronger predicate than one that already selects
nothing selects nothing. -/
theorem filter_nil_of_imp {α} (l : List α) (p q : α → Bool)
    (h : ∀ a, p a = true → q a = true) (hq : l.filter q = []) :
    l.filter p = [] := by
  rw [List.filter_eq_nil_iff] at hq ⊢
  exact fun a ha hp => hq a ha (h a hp)

/-- Lemma: `scalar_one_or_none` on at most one row returns that row. -/
theorem scalarOneOrNone_short (l : List Grafik) (h : l.length ≤ 1) :
    scalarOneOrNone l = .ok l.head? := by
  match l with
  | [] => rfl
  | [g] => rfl
  | a :: b :: t => simp at h

/-- Lemma: `scalar_one_or_none` on two or more rows raises `MultipleResultsFound`. -/
theorem scalarOneOrNone_dup (l : List Grafik) (h : 2 ≤ l.length) :
    scalarOneOrNone l = .error () := by
  match l with
  | [] => simp at h
  | [g] => simp at h
  | a :: b :: t => rfl

/-- A date string that parses is nonempty. -/
theorem dateWeekday_ne_empty {date : String} {cw : Int}
    (h : dateWeekday date = some cw) : date ≠ "" := by
  intro he
  subst he
  have hnone : dateWeekday "" = none := rfl
  rw [hnone] at h
  exact Option.noConfusion h

/-- The exact-date branch of `_get_grafik_by_day_date_and_type` for a
nonempty date string. -/
theorem get_grafik_date_eq (env : Env) (sid : String) (day : Option Int)
    (t ds : String) (hne : ds ≠ "") :
    get_grafik_by_day_date_and_type env sid day (some ds) t =
      scalarOneOrNone (env.grafiks.filter (fun g =>
        g.specialist_id == sid && g.specific_date == some ds &&
          g.grafik_type == t)) := by
  unfold get_grafik_by_day_date_and_type
  rw [show truthyStr (some ds) = some ds from by simp [truthyStr, hne]]

/-- The weekday branch of `_get_grafik_by_day_date_and_type`. -/
theorem get_grafik_day_eq (env : Env) (sid : String) (day : Option Int)
    (t : String) :
    get_grafik_by_day_date_and_type env sid day none t =
      scalarOneOrNone (env.grafiks.filter (fun g =>
        g.specialist_id == sid && g.day_of_week == day &&
          g.grafik_type == t)) := rfl

/-- If the specialist has no rules of kind `t` at all, both lookup steps
find nothing. -/
theorem resolveGrafik_none_of_no_rules (env : Env) (sid date : String)
    (w : Int) (t : String)
    (h : env.grafiks.filter (fun g =>
      g.specialist_id == sid && g.grafik_type == t) = []) :
    resolveGrafik env sid date w t = .ok none := by
  have hdate : ∀ ds, env.grafiks.filter (fun g =>
      g.specialist_id == sid && g.specific_date == some ds &&
        g.grafik_type == t) = [] := by
    intro ds
    refine filter_nil_of_imp _ _ _ ?_ h
    intro a ha
    simp only [Bool.and_eq_true] at ha ⊢
    exact ⟨ha.1.1, ha.2⟩
  have hday : ∀ dow : Option Int, env.grafiks.filter (fun g =>
      g.specialist_id == sid && g.day_of_week == dow &&
        g.grafik_type == t) = [] := by
    intro dow
    refine filter_nil_of_imp _ _ _ ?_ h
    intro a ha
    simp only [Bool.and_eq_true] at ha ⊢
    exact ⟨ha.1.1, ha.2⟩
  unfold resolveGrafik
  by_cases hne : date = ""
  · subst hne
    rw [show get_grafik_by_day_date_and_type env sid none (some "") t =
        scalarOneOrNone (env.grafiks.filter (fun g =>
          g.specialist_id == sid && g.day_of_week == none &&
            g.grafik_type == t)) from rfl]
    rw [hday, show scalarOneOrNone [] = .ok none from rfl]
    rw [show get_grafik_by_day_date_and_type env sid (some w) none t =
        scalarOneOrNone (env.grafiks.filter (fun g =>
          g.specialist_id == sid && g.day_of_week == some w &&
            g.grafik_type == t)) from rfl]
    rw [hday, show scalarOneOrNone [] = .ok none from rfl]
    rfl
  · rw [get_grafik_date_eq env sid none t date hne, hdate,
      show scalarOneOrNone [] = .ok none from rfl]
    rw [get_grafik_day_eq env sid (some w) t, hday,
      show scalarOneOrNone [] = .ok none from rfl]
    rfl

/-- When each lookup set has at most one row, the two-step lookup does not
raise. -/
theorem resolveGrafik_ok_of_short (env : Env) (sid date : String) (w : Int)
    (t : String)
    (h1 : (env.grafiks.filter (fun g =>
      g.specialist_id == sid && g.specific_date == some date &&
        g.grafik_type == t)).length ≤ 1)
    (h2 : (env.grafiks.filter (fun g =>
      g.specialist_id == sid && g.day_of_week == some w &&
        g.grafik_type == t)).length ≤ 1)
    (hne : date ≠ "") :
    ∃ og, resolveGrafik env sid date w t = .ok og := by
  unfold resolveGrafik
  rw [get_grafik_date_eq env sid none t date hne, scalarOneOrNone_short _ h1]
  cases hh : (env.grafiks.filter (fun g =>
      g.specialist_id == sid && g.specific_date == some date &&
        g.grafik_type == t)).head? with
  | some g => exact ⟨some g, rfl⟩
  | none =>
    refine ⟨(env.grafiks.filter (fun g =>
      g.specialist_id == sid && g.day_of_week == some w &&
        g.grafik_type == t)).head?, ?_⟩
    show get_grafik_by_day_date_and_type env sid (some w) none t = _
    rw [get_grafik_day_eq env sid (some w) t, scalarOneOrNone_short _ h2]

/-- Lemma: `_generate_time_slots` with a negative duration always returns `[]`
(either the loop guard fails at once, or the current time decreases until
the guard's datetime arithmetic overflows and the handler returns `[]`). -/
theorem generate_time_slots_neg (st et : String) (d : Int) (hd : d < 0) :
    generate_time_slots st et d = some [] := by
  unfold generate_time_slots
  cases parseTime st <;> cases parseTime et <;>
    simp [if_neg (by omega : ¬ 0 < d), if_neg (by omega : ¬ d = 0)]

/-- The work branch yields no slots for a non-positive duration. -/
theorem workSlots_nonpos (og : Option Grafik) (d : Int) (hd : d ≤ 0) :
    workSlots og (some d) = none ∨ workSlots og (some d) = some [] := by
  match og with
  | none => exact Or.inl rfl
  | some w =>
    by_cases hd0 : d = 0
    · subst hd0
      have ht : truthyInt (some (0 : Int)) = none := rfl
      simp only [workSlots, ht]
      cases truthyStr w.start_time <;> cases truthyStr w.end_time <;>
        exact Or.inl rfl
    · have ht : truthyInt (some d) = some d := by simp [truthyInt, hd0]
      simp only [workSlots, ht]
      cases truthyStr w.start_time with
      | none => exact Or.inl rfl
      | some st =>
        cases truthyStr w.end_time with
        | none => exact Or.inl rfl
        | some et =>
          right
          show some ((generate_time_slots st et d).getD []) = some []
          rw [generate_time_slots_neg st et d (by omega)]
          rfl

/-- C5. For every `WorkHours` configuration and non-positive service
duration the slot computation terminates with the empty list: a zero
duration is falsy, so the caller's guard skips generation entirely, and a
negative duration makes `_generate_time_slots` return `[]` through its
exception handler.  Stated over any environment in which no
`available_slots` rule applies and the `work_schedule` lookups are
unambiguous. -/
theorem nonpositive_duration_empty_slots (env : Env) (sid date : String)
    (dw : Option Int) (d cw : Int)
    (hdate : dateWeekday date = some cw)
    (havail : env.grafiks.filter (fun g =>
        g.specialist_id == sid && g.grafik_type == "available_slots") = [])
    (hwd : (env.grafiks.filter (fun g =>
        g.specialist_id == sid && g.specific_date == some date &&
          g.grafik_type == "work_schedule")).length ≤ 1)
    (hww : ∀ w : Int, (env.grafiks.filter (fun g =>
        g.specialist_id == sid && g.day_of_week == some w &&
          g.grafik_type == "work_schedule")).length ≤ 1)
    (hd : d ≤ 0) :
    get_available_time_slots env sid date dw (some d) = .ok [] := by
  have hne := dateWeekday_ne_empty hdate
  obtain ⟨og, hog⟩ := resolveGrafik_ok_of_short env sid date (pyOr dw cw)
    "work_schedule" hwd (hww _) hne
  have hres : resolveDefinedSlots env sid date (pyOr dw cw) (some d) =
      .ok (workSlots og (some d)) := by
    unfold resolveDefinedSlots
    rw [resolveGrafik_none_of_no_rules env sid date _ _ havail, hog]
    rfl
  unfold get_available_time_slots
  rw [hdate]
  show (match resolveDefinedSlots env sid date (pyOr dw cw) (some d) with
    | .error e => .error e
    | .ok none => .ok []
    | .ok (some defined) =>
      .ok (filter_overlapping_slots defined (get_busy_time_intervals env sid date)
        (pyOr (some d) 60)) : Except Unit (List String)) = .ok []
  rw [hres]
  rcases workSlots_nonpos og d hd with h | h <;> rw [h] <;> rfl

/-- Closed instance of `nonpositive_duration_empty_slots`: a Monday
09:00–11:00 `WorkHours` rule with duration 0 yields the empty result. -/
theorem nonpositive_duration_empty_slots_witness :
    get_available_time_slots { grafiks := [gWork], appointments := [] }
      "s1" "06.10.2025" none (some 0) = .ok [] :=
  nonpositive_duration_empty_slots _ "s1" "06.10.2025" none 0 1 rfl
    (by decide) (by decide)
    (fun _ => le_trans (List.length_filter_le _ _) (by decide)) (by decide)

/-! ## Pipeline decomposition lemmas -/

/-- The pipeline's final step, given the resolved defined slots. -/
theorem pipeline_of_resolved (env : Env) (sid date : String)
    (dw sd : Option Int) (cw : Int) (r : Option (List String))
    (hdate : dateWeekday date = some cw)
    (hres : resolveDefinedSlots env sid date (pyOr dw cw) sd = .ok r) :
    get_available_time_slots env sid date dw sd = finalStep env sid date sd r := by
  unfold get_available_time_slots
  rw [hdate]
  show (match resolveDefinedSlots env sid date (pyOr dw cw) sd with
    | .error e => .error e
    | .ok none => .ok []
    | .ok (some defined) =>
      .ok (filter_overlapping_slots defined (get_busy_time_intervals env sid date)
        (pyOr sd 60)) : Except Unit (List String)) = _
  rw [hres]
  cases r <;> rfl

/-- A raised lookup exception propagates out of the pipeline (the outer
`except` logs and re-raises). -/
theorem pipeline_error_of_resolved (env : Env) (sid date : String)
    (dw sd : Option Int) (cw : Int)
    (hdate : dateWeekday date = some cw)
    (hres : resolveDefinedSlots env sid date (pyOr dw cw) sd = .error ()) :
    get_available_time_slots env sid date dw sd = .error () := by
  unfold get_available_time_slots
  rw [hdate]
  show (match resolveDefinedSlots env sid date (pyOr dw cw) sd with
    | .error e => .error e
    | .ok none => .ok []
    | .ok (some defined) =>
      .ok (filter_overlapping_slots defined (get_busy_time_intervals env sid date)
        (pyOr sd 60)) : Except Unit (List String)) = _
  rw [hres]

/-- Defined slots when the `available_slots` rule resolves with a truthy
slot list. -/
theorem resolveDefinedSlots_avail (env : Env) (sid date : String) (w : Int)
    (sd : Option Int) (g : Grafik) (ts : List String)
    (ha : resolveGrafik env sid date w "available_slots" = .ok (some g))
    (hts : truthyList g.time_slots = some ts) :
    resolveDefinedSlots env sid date w sd = .ok (some ts) := by
  unfold resolveDefinedSlots
  rw [ha]
  show (match truthyList g.time_slots with
    | some ts => pure (some ts)
    | none => do
      let wg ← resolveGrafik env sid date w "work_schedule"
      pure (workSlots wg sd) : Except Unit (Option (List String))) = _
  rw [hts]
  rfl

/-- Defined slots when no usable `available_slots` rule exists and the
`work_schedule` lookup returns `og`. -/
theorem resolveDefinedSlots_work (env : Env) (sid date : String) (w : Int)
    (sd : Option Int) (og : Option Grafik)
    (ha : resolveGrafik env sid date w "available_slots" = .ok none)
    (hw : resolveGrafik env sid date w "work_schedule" = .ok og) :
    resolveDefinedSlots env sid date w sd = .ok (workSlots og sd) := by
  unfold resolveDefinedSlots
  rw [ha, hw]
  rfl

/-- Defined slots when the resolved `available_slots` rule has a falsy
slot list: the code falls through to the `work_schedule` branch. -/
theorem resolveDefinedSlots_avail_falsy (env : Env) (sid date : String)
    (w : Int) (sd : Option Int) (g : Grafik) (og : Option Grafik)
    (ha : resolveGrafik env sid date w "available_slots" = .ok (some g))
    (hts : truthyList g.time_slots = none)
    (hw : resolveGrafik env sid date w "work_schedule" = .ok og) :
    resolveDefinedSlots env sid date w sd = .ok (workSlots og sd) := by
  unfold resolveDefinedSlots
  rw [ha, hw]
  show (match truthyList g.time_slots with
    | some ts => pure (some ts)
    | none => Except.ok (workSlots og sd) : Except Unit (Option (List String))) = _
  rw [hts]

/-- A raised `available_slots` lookup aborts the slot resolution. -/
theorem resolveDefinedSlots_avail_error (env : Env) (sid date : String)
    (w : Int) (sd : Option Int)
    (ha : resolveGrafik env sid date w "available_slots" = .error ()) :
    resolveDefinedSlots env sid date w sd = .error () := by
  unfold resolveDefinedSlots
  rw [ha]
  rfl

/-- A duplicate exact-date rule set makes the two-step lookup raise. -/
theorem resolveGrafik_error_of_dup_date (env : Env) (sid date : String)
    (w : Int) (t : String) (hne : date ≠ "")
    (h : 2 ≤ (env.grafiks.filter (fun g =>
      g.specialist_id == sid && g.specific_date == some date &&
        g.grafik_type == t)).length) :
    resolveGrafik env sid date w t = .error () := by
  unfold resolveGrafik
  rw [get_grafik_date_eq env sid none t date hne, scalarOneOrNone_dup _ h]
  rfl

/-- The work branch yields no slots when any required datum is falsy:
missing/empty `start_time` or `end_time`, or missing/zero duration. -/
theorem workSlots_none_of_insufficient (w : Grafik) (sd : Option Int)
    (h : truthyStr w.start_time = none ∨ truthyStr w.end_time = none ∨
      truthyInt sd = none) :
    workSlots (some w) sd = none := by
  simp only [workSlots]
  rcases h with h | h | h
  · rw [h]
  · rw [h]
    cases truthyStr w.start_time <;> rfl
  · rw [h]
    cases truthyStr w.start_time <;> cases truthyStr w.end_time <;> rfl

/-- C7. No configuration is not an error: whenever the two-step
`available_slots` lookup finds no rule — including when rules exist but
match neither the exact date nor the weekday — or finds one whose slot
list is falsy, and the `work_schedule` lookup likewise finds no rule or
finds one whose data is insufficient to generate slots (falsy
`start_time`, falsy `end_time`, or falsy service duration), the pipeline
returns the empty list as a normal result, not a failure. -/
theorem no_configuration_empty_result (env : Env) (sid date : String)
    (dw sd : Option Int) (cw : Int)
    (hdate : dateWeekday date = some cw)
    (havail : resolveGrafik env sid date (pyOr dw cw) "available_slots" =
        .ok none ∨
      (∃ g, resolveGrafik env sid date (pyOr dw cw) "available_slots" =
          .ok (some g) ∧ truthyList g.time_slots = none))
    (hwork : resolveGrafik env sid date (pyOr dw cw) "work_schedule" =
        .ok none ∨
      (∃ w, resolveGrafik env sid date (pyOr dw cw) "work_schedule" =
          .ok (some w) ∧
        (truthyStr w.start_time = none ∨ truthyStr w.end_time = none ∨
          truthyInt sd = none))) :
    get_available_time_slots env sid date dw sd = .ok [] := by
  have hog : ∃ og, resolveGrafik env sid date (pyOr dw cw) "work_schedule" =
      .ok og ∧ workSlots og sd = none := by
    rcases hwork with h | ⟨w, hw, hins⟩
    · exact ⟨none, h, rfl⟩
    · exact ⟨some w, hw, workSlots_none_of_insufficient w sd hins⟩
  obtain ⟨og, hw, hws⟩ := hog
  have hres : resolveDefinedSlots env sid date (pyOr dw cw) sd = .ok none := by
    rcases havail with h | ⟨g, hg, hts⟩
    · rw [resolveDefinedSlots_work env sid date (pyOr dw cw) sd og h hw, hws]
    · rw [resolveDefinedSlots_avail_falsy env sid date (pyOr dw cw) sd g og
        hg hts hw, hws]
  exact pipeline_of_resolved env sid date dw sd cw none hdate hres

/-- Closed instance of `no_configuration_empty_result`: the specialist has
a rule, but it is scoped to Tuesday and the query is for a Monday, so no
rule is found and the result is empty, not an error. -/
theorem no_configuration_empty_result_witness :
    get_available_time_slots envTueOnly "s1" "06.10.2025" none (some 60) =
      .ok [] :=
  no_configuration_empty_result envTueOnly "s1" "06.10.2025" none (some 60)
    1 rfl (Or.inl (by decide)) (Or.inl (by decide))

/-- C10. The rule lookup assumes at most one matching row: with two or more
rows for the same `(specialist, scope, kind)`, `scalar_one_or_none` raises
`MultipleResultsFound` — in the exact-date branch, in the weekday branch,
and through the whole slot computation, which then fails instead of
returning a result. -/
theorem duplicate_rules_raise :
    (∀ (env : Env) (sid : String) (day : Option Int) (sd : Option String)
        (t ds : String),
      truthyStr sd = some ds →
      2 ≤ (env.grafiks.filter (fun g =>
        g.specialist_id == sid && g.specific_date == some ds &&
          g.grafik_type == t)).length →
      get_grafik_by_day_date_and_type env sid day sd t = .error ())
    ∧ (∀ (env : Env) (sid : String) (day : Option Int) (sd : Option String)
        (t : String),
      truthyStr sd = none →
      2 ≤ (env.grafiks.filter (fun g =>
        g.specialist_id == sid && g.day_of_week == day &&
          g.grafik_type == t)).length →
      get_grafik_by_day_date_and_type env sid day sd t = .error ())
    ∧ (∀ (env : Env) (sid date : String) (dw sduration : Option Int) (cw : Int),
      dateWeekday date = some cw →
      2 ≤ (env.grafiks.filter (fun g =>
        g.specialist_id == sid && g.specific_date == some date &&
          g.grafik_type == "available_slots")).length →
      get_available_time_slots env sid date dw sduration = .error ()) := by
  refine ⟨?_, ?_, ?_⟩
  · intro env sid day sd t ds htr h
    unfold get_grafik_by_day_date_and_type
    rw [htr]
    exact scalarOneOrNone_dup _ h
  · intro env sid day sd t htr h
    unfold get_grafik_by_day_date_and_type
    rw [htr]
    exact scalarOneOrNone_dup _ h
  · intro env sid date dw sduration cw hdate h
    have hne := dateWeekday_ne_empty hdate
    exact pipeline_error_of_resolved env sid date dw sduration cw hdate
      (resolveDefinedSlots_avail_error env sid date _ _
        (resolveGrafik_error_of_dup_date env sid date _ _ hne h))

/-- Closed instance of `duplicate_rules_raise`: two `available_slots` rules
for the same specialist and date make the computation raise. -/
theorem duplicate_rules_raise_witness :
    get_available_time_slots envDupDate "s1" "06.10.2025" none none =
      .error () :=
  duplicate_rules_raise.2.2 envDupDate "s1" "06.10.2025" none none 1 rfl
    (by decide)

/-- C8. Determinism of the pipeline: the embedding is a pure function of
the request and of the database rows (in fixed result-set order), so two
runs on identical inputs return identical, order-stable results. -/
theorem pipeline_deterministic (env : Env) (sid date : String)
    (dw sd : Option Int) :
    get_available_time_slots env sid date dw sd =
      get_available_time_slots env sid date dw sd := rfl

/-- C9. When no service duration is supplied and an `available_slots` rule
applies, the busy-interval filter runs with the default duration 60
(`service_duration or 60`): each candidate is treated as occupying a
60-minute interval, and the default affects only the filtering step. -/
theorem default_duration_for_filtering (env : Env) (sid date : String)
    (dw : Option Int) (cw : Int) (g : Grafik) (ts : List String)
    (hdate : dateWeekday date = some cw)
    (hg : resolveGrafik env sid date (pyOr dw cw) "available_slots" =
      .ok (some g))
    (hts : truthyList g.time_slots = some ts) :
    get_available_time_slots env sid date dw none =
      .ok (filter_overlapping_slots ts (get_busy_time_intervals env sid date)
        60) := by
  have hres := resolveDefinedSlots_avail env sid date (pyOr dw cw) none g ts
    hg hts
  rw [pipeline_of_resolved env sid date dw none cw (some ts) hdate hres]
  rfl

/-- Closed instance of `default_duration_for_filtering`: explicit slots
10:00/14:00, a 10:00 booking, no duration supplied — the filter runs with
60 and removes 10:00. -/
theorem default_duration_for_filtering_witness :
    get_available_time_slots envAvailWork "s1" "06.10.2025" none none =
      .ok (filter_overlapping_slots ["10:00", "14:00"]
        (get_busy_time_intervals envAvailWork "s1" "06.10.2025") 60) :=
  default_duration_for_filtering envAvailWork "s1" "06.10.2025" none 1
    gAvail ["10:00", "14:00"] rfl (by decide) (by decide)

/-! ## Environment-modification lemmas for the precedence claims -/

/-- Filtering a list already filtered by a weaker predicate filters the
original list. -/
theorem filter_filter_of_imp {α} (l : List α) (p keep : α → Bool)
    (h : ∀ a, p a = true → keep a = true) :
    (l.filter keep).filter p = l.filter p := by
  rw [List.filter_filter]
  refine List.filter_congr ?_
  intro a _
  cases hp : p a with
  | false => simp
  | true => simp [h a hp]

/-- Removing a specialist's `work_schedule` rules does not change either
branch of an `available_slots` lookup. -/
theorem get_grafik_dropWork (env : Env) (sid' sid : String)
    (day : Option Int) (sdate : Option String) :
    get_grafik_by_day_date_and_type (dropWorkRules env sid') sid day sdate
        "available_slots" =
      get_grafik_by_day_date_and_type env sid day sdate "available_slots" := by
  have hkeep : ∀ (p : Grafik → Bool),
      (∀ a, p a = true → (a.grafik_type == "available_slots") = true) →
      (dropWorkRules env sid').grafiks.filter p = env.grafiks.filter p := by
    intro p hp
    show (env.grafiks.filter _).filter p = _
    refine filter_filter_of_imp _ p _ ?_
    intro a ha
    have ht : a.grafik_type = "available_slots" := eq_of_beq (hp a ha)
    simp [ht]
  unfold get_grafik_by_day_date_and_type
  cases htr : truthyStr sdate with
  | some ds =>
    show scalarOneOrNone ((dropWorkRules env sid').grafiks.filter (fun g =>
        g.specialist_id == sid && g.specific_date == some ds &&
          g.grafik_type == "available_slots")) = _
    rw [hkeep (fun g => g.specialist_id == sid && g.specific_date == some ds &&
        g.grafik_type == "available_slots")
      (fun a ha => by
        rw [Bool.and_eq_true, Bool.and_eq_true] at ha
        exact ha.2)]
  | none =>
    show scalarOneOrNone ((dropWorkRules env sid').grafiks.filter (fun g =>
        g.specialist_id == sid && g.day_of_week == day &&
          g.grafik_type == "available_slots")) = _
    rw [hkeep (fun g => g.specialist_id == sid && g.day_of_week == day &&
        g.grafik_type == "available_slots")
      (fun a ha => by
        rw [Bool.and_eq_true, Bool.and_eq_true] at ha
        exact ha.2)]

/-- Removing a specialist's `work_schedule` rules does not change the
two-step `available_slots` resolution. -/
theorem resolveGrafik_dropWork (env : Env) (sid' sid date : String) (w : Int) :
    resolveGrafik (dropWorkRules env sid') sid date w "available_slots" =
      resolveGrafik env sid date w "available_slots" := by
  unfold resolveGrafik
  rw [get_grafik_dropWork env sid' sid none (some date),
    get_grafik_dropWork env sid' sid (some w) none]

/-- C3 (amended). When the resolved `available_slots` rule has a nonempty
slot list, the result is computed from it alone and every `work_schedule`
rule of the specialist can be deleted without changing the result: the
`WorkHours` kind is never consulted.  (As stated the claim fails: an
`available_slots` rule whose `time_slots` list is empty or null exists but
falls through to `work_schedule`, see the counterexample.) -/
theorem cross_kind_precedence_amended (env : Env) (sid date : String)
    (dw sd : Option Int) (cw : Int) (g : Grafik) (ts : List String)
    (hdate : dateWeekday date = some cw)
    (hg : resolveGrafik env sid date (pyOr dw cw) "available_slots" =
      .ok (some g))
    (hts : truthyList g.time_slots = some ts) :
    get_available_time_slots env sid date dw sd =
      .ok (filter_overlapping_slots ts (get_busy_time_intervals env sid date)
        (pyOr sd 60))
    ∧ get_available_time_slots env sid date dw sd =
      get_available_time_slots (dropWorkRules env sid) sid date dw sd := by
  have h1 : get_available_time_slots env sid date dw sd =
      .ok (filter_overlapping_slots ts (get_busy_time_intervals env sid date)
        (pyOr sd 60)) := by
    rw [pipeline_of_resolved env sid date dw sd cw (some ts) hdate
      (resolveDefinedSlots_avail env sid date (pyOr dw cw) sd g ts hg hts)]
    rfl
  refine ⟨h1, ?_⟩
  have hg' : resolveGrafik (dropWorkRules env sid) sid date (pyOr dw cw)
      "available_slots" = .ok (some g) := by
    rw [resolveGrafik_dropWork env sid sid date (pyOr dw cw)]
    exact hg
  have h2 : get_available_time_slots (dropWorkRules env sid) sid date dw sd =
      .ok (filter_overlapping_slots ts
        (get_busy_time_intervals (dropWorkRules env sid) sid date)
        (pyOr sd 60)) := by
    rw [pipeline_of_resolved (dropWorkRules env sid) sid date dw sd cw (some ts)
      hdate (resolveDefinedSlots_avail (dropWorkRules env sid) sid date
        (pyOr dw cw) sd g ts hg' hts)]
    rfl
  have hbusy : get_busy_time_intervals (dropWorkRules env sid) sid date =
      get_busy_time_intervals env sid date := rfl
  rw [h1, h2, hbusy]

/-- Refutation of C3 as stated: in `envBothKinds` rules of both kinds exist
for the specialist and weekday, yet the result (09:00/10:00) is generated
from the `work_schedule` rule — removing that rule changes the result to
`[]` — because the `available_slots` rule's empty list is falsy. -/
theorem cross_kind_precedence_counterexample :
    (gEmptySlots ∈ envBothKinds.grafiks ∧
      gEmptySlots.grafik_type = "available_slots" ∧
      gWork ∈ envBothKinds.grafiks ∧ gWork.grafik_type = "work_schedule")
    ∧ get_available_time_slots envBothKinds "s1" "06.10.2025" none (some 60) =
        .ok ["09:00", "10:00"]
    ∧ get_available_time_slots envAvailOnly "s1" "06.10.2025" none (some 60) =
        .ok [] := by decide

/-- Closed instance of `cross_kind_precedence_amended` on `envAvailWork`. -/
theorem cross_kind_precedence_amended_witness :
    get_available_time_slots envAvailWork "s1" "06.10.2025" none (some 60) =
      .ok (filter_overlapping_slots ["10:00", "14:00"]
        (get_busy_time_intervals envAvailWork "s1" "06.10.2025") 60) :=
  (cross_kind_precedence_amended envAvailWork "s1" "06.10.2025" none (some 60)
    1 gAvail ["10:00", "14:00"] rfl (by decide) (by decide)).1

/-- Rules whose falsy-`specific_date` removal cannot affect a filter whose
predicate forces them to be kept. -/
theorem dropWeekday_filter_eq (env : Env) (sid' t' : String)
    (p : Grafik → Bool)
    (hp : ∀ a, p a = true →
      (a.specialist_id == sid' && a.grafik_type == t' &&
        truthyStr a.specific_date == none) = false) :
    (dropWeekdayRules env sid' t').grafiks.filter p = env.grafiks.filter p := by
  show (env.grafiks.filter _).filter p = _
  refine filter_filter_of_imp _ p _ ?_
  intro a ha
  simp [hp a ha]

/-- Removing weekday-scoped rules (of any specialist and kind) leaves every
exact-date lookup unchanged. -/
theorem get_grafik_dropWeekday_date (env : Env) (sid' t' sid : String)
    (day : Option Int) (t ds : String) (hds : ds ≠ "") :
    get_grafik_by_day_date_and_type (dropWeekdayRules env sid' t') sid day
        (some ds) t =
      get_grafik_by_day_date_and_type env sid day (some ds) t := by
  rw [get_grafik_date_eq _ sid day t ds hds,
    get_grafik_date_eq env sid day t ds hds]
  rw [dropWeekday_filter_eq env sid' t'
    (fun g => g.specialist_id == sid && g.specific_date == some ds &&
      g.grafik_type == t)
    (fun a ha => by
      rw [Bool.and_eq_true, Bool.and_eq_true] at ha
      have hsd : a.specific_date = some ds := eq_of_beq ha.1.2
      simp [hsd, truthyStr, hds])]

/-- Removing weekday-scoped rules of kind `t'` leaves weekday lookups of a
different kind `t` unchanged. -/
theorem get_grafik_dropWeekday_day_ne (env : Env) (sid' t' sid : String)
    (day : Option Int) (t : String) (hne : t ≠ t') :
    get_grafik_by_day_date_and_type (dropWeekdayRules env sid' t') sid day
        none t =
      get_grafik_by_day_date_and_type env sid day none t := by
  rw [get_grafik_day_eq, get_grafik_day_eq]
  rw [dropWeekday_filter_eq env sid' t'
    (fun g => g.specialist_id == sid && g.day_of_week == day &&
      g.grafik_type == t)
    (fun a ha => by
      rw [Bool.and_eq_true, Bool.and_eq_true] at ha
      have htt : a.grafik_type = t := eq_of_beq ha.2
      simp [htt, hne])]

/-- When an exact-date rule of kind `t` exists, the two-step lookup of kind
`t` never reaches its weekday step, so removing the weekday rules of kind
`t` changes nothing. -/
theorem resolveGrafik_dropWeekday_of_date_nonempty (env : Env)
    (sid' t' sid date : String) (w : Int) (t : String) (hds : date ≠ "")
    (hmatch : env.grafiks.filter (fun g =>
      g.specialist_id == sid && g.specific_date == some date &&
        g.grafik_type == t) ≠ []) :
    resolveGrafik (dropWeekdayRules env sid' t') sid date w t =
      resolveGrafik env sid date w t := by
  unfold resolveGrafik
  rw [get_grafik_dropWeekday_date env sid' t' sid none t date hds,
    get_grafik_date_eq env sid none t date hds]
  cases hl : env.grafiks.filter (fun g =>
      g.specialist_id == sid && g.specific_date == some date &&
        g.grafik_type == t) with
  | nil => exact absurd hl hmatch
  | cons a as =>
    cases as with
    | nil => rfl
    | cons b bs => rfl

/-- Lookups of a kind other than the removed one are unchanged entirely. -/
theorem resolveGrafik_dropWeekday_ne (env : Env) (sid' t' sid date : String)
    (w : Int) (t : String) (hnet : t ≠ t') (hds : date ≠ "") :
    resolveGrafik (dropWeekdayRules env sid' t') sid date w t =
      resolveGrafik env sid date w t := by
  unfold resolveGrafik
  rw [get_grafik_dropWeekday_date env sid' t' sid none t date hds,
    get_grafik_dropWeekday_day_ne env sid' t' sid (some w) t hnet]

/-- Slot resolution is unchanged by removing the weekday rules of kind `t`
when an exact-date rule of kind `t` exists. -/
theorem resolveDefinedSlots_dropWeekday (env : Env) (sid date : String)
    (w : Int) (sd : Option Int) (t : String)
    (ht : t = "available_slots" ∨ t = "work_schedule") (hds : date ≠ "")
    (hmatch : env.grafiks.filter (fun g =>
      g.specialist_id == sid && g.specific_date == some date &&
        g.grafik_type == t) ≠ []) :
    resolveDefinedSlots (dropWeekdayRules env sid t) sid date w sd =
      resolveDefinedSlots env sid date w sd := by
  unfold resolveDefinedSlots
  rcases ht with h | h
  · subst h
    rw [resolveGrafik_dropWeekday_of_date_nonempty env sid "available_slots"
        sid date w "available_slots" hds hmatch,
      resolveGrafik_dropWeekday_ne env sid "available_slots" sid date w
        "work_schedule" (by decide) hds]
  · subst h
    rw [resolveGrafik_dropWeekday_ne env sid "work_schedule" sid date w
        "available_slots" (by decide) hds,
      resolveGrafik_dropWeekday_of_date_nonempty env sid "work_schedule"
        sid date w "work_schedule" hds hmatch]

/-- Two environments with the same resolution and busy intervals give the
same pipeline result. -/
theorem pipeline_env_congr (env env' : Env) (sid date : String)
    (dw sd : Option Int) (cw : Int)
    (hdate : dateWeekday date = some cw)
    (hres : resolveDefinedSlots env sid date (pyOr dw cw) sd =
      resolveDefinedSlots env' sid date (pyOr dw cw) sd)
    (hbusy : get_busy_time_intervals env sid date =
      get_busy_time_intervals env' sid date) :
    get_available_time_slots env sid date dw sd =
      get_available_time_slots env' sid date dw sd := by
  unfold get_available_time_slots
  rw [hdate]
  show (match resolveDefinedSlots env sid date (pyOr dw cw) sd with
    | .error e => .error e
    | .ok none => .ok []
    | .ok (some defined) =>
      .ok (filter_overlapping_slots defined (get_busy_time_intervals env sid date)
        (pyOr sd 60)) : Except Unit (List String)) =
    (match resolveDefinedSlots env' sid date (pyOr dw cw) sd with
    | .error e => .error e
    | .ok none => .ok []
    | .ok (some defined) =>
      .ok (filter_overlapping_slots defined (get_busy_time_intervals env' sid date)
        (pyOr sd 60)) : Except Unit (List String))
  rw [hres, hbusy]

/-- C4. Scope precedence: when an exact-`specific_date` rule of kind `t`
exists for the specialist, the weekday-scoped rules of that kind can all be
removed without changing the slot computation — only the `specific_date`
rule is used and the weekday rule's content has no effect. -/
theorem specific_date_scope_precedence (env : Env) (sid date : String)
    (dw sd : Option Int) (cw : Int) (t : String)
    (hdate : dateWeekday date = some cw)
    (ht : t = "available_slots" ∨ t = "work_schedule")
    (hmatch : env.grafiks.filter (fun g =>
      g.specialist_id == sid && g.specific_date == some date &&
        g.grafik_type == t) ≠ []) :
    get_available_time_slots env sid date dw sd =
      get_available_time_slots (dropWeekdayRules env sid t) sid date dw sd := by
  have hds := dateWeekday_ne_empty hdate
  exact (pipeline_env_congr (dropWeekdayRules env sid t) env sid date dw sd cw
    hdate
    (resolveDefinedSlots_dropWeekday env sid date (pyOr dw cw) sd t ht hds
      hmatch)
    rfl).symm

/-- Closed instance of `specific_date_scope_precedence`: with both a
specific-date `available_slots` rule (12:00) and a conflicting weekday rule
(10:00/14:00) present, deleting the weekday rule leaves the result — the
date rule's 12:00 — unchanged. -/
theorem specific_date_scope_precedence_witness :
    get_available_time_slots envDateAndDay "s1" "06.10.2025" none (some 60) =
      get_available_time_slots (dropWeekdayRules envDateAndDay "s1"
        "available_slots") "s1" "06.10.2025" none (some 60) :=
  specific_date_scope_precedence envDateAndDay "s1" "06.10.2025" none
    (some 60) 1 "available_slots" rfl (Or.inl rfl) (by decide)

/-! ## Error swallowing (C6) -/

/-- The busy-interval loop raises on any matching appointment with an
unparseable time, so the whole function's handler returns `[]`. -/
theorem busyAux_none_of_bad (l : List Appointment)
    (h : ∃ a ∈ l, parseTime a.time = none) : busyAux l = none := by
  induction l with
  | nil =>
    rcases h with ⟨a, ha, _⟩
    cases ha
  | cons x xs ih =>
    rcases h with ⟨a, ha, hp⟩
    rcases List.mem_cons.mp ha with rfl | hmem
    · simp [busyAux, hp]
    · cases hx : parseTime x.time with
      | none => simp [busyAux, hx]
      | some t => simp [busyAux, hx, ih ⟨a, hmem, hp⟩]

/-- The filter loop raises on any candidate with an unparseable time, so
the handler returns the input list unfiltered. -/
theorem filterAux_none_of_bad (busy : List (String × String)) (d : Int)
    (slots : List String) (h : ∃ c ∈ slots, parseTime c = none) :
    filterAux busy d slots = none := by
  induction slots with
  | nil =>
    rcases h with ⟨c, hc, _⟩
    cases hc
  | cons x xs ih =>
    rcases h with ⟨c, hc, hp⟩
    rcases List.mem_cons.mp hc with rfl | hmem
    · simp [filterAux, hp]
    · cases hx : parseTime x with
      | none => simp [filterAux, hx]
      | some cs =>
        cases hcb : checkBusy cs ((cs : Int) + d) busy with
        | none => simp [filterAux, hx, hcb]
        | some b => simp [filterAux, hx, hcb, ih ⟨c, hmem, hp⟩]

/-- C6 (amended). Only a malformed date string surfaces as a raised error;
the other invalid inputs are swallowed by the per-helper `except` handlers:
a malformed rule time makes `_generate_time_slots` return `[]`, a malformed
appointment time makes `_get_busy_time_intervals` return no intervals, a
malformed candidate slot makes `_filter_overlapping_slots` return the
candidates unfiltered, and a negative duration makes generation return `[]`
— all normal results, not failures. -/
theorem invalid_input_amended :
    (∀ (env : Env) (sid date : String) (dw sd : Option Int),
      dateWeekday date = none →
      get_available_time_slots env sid date dw sd = .error ())
    ∧ (∀ (st et : String) (d : Int),
      parseTime st = none ∨ parseTime et = none →
      generate_time_slots st et d = some [])
    ∧ (∀ (env : Env) (sid date : String),
      (∃ a ∈ matchingApps env sid date, parseTime a.time = none) →
      get_busy_time_intervals env sid date = [])
    ∧ (∀ (slots : List String) (busy : List (String × String)) (d : Int),
      (∃ c ∈ slots, parseTime c = none) →
      filter_overlapping_slots slots busy d = slots)
    ∧ (∀ (st et : String) (d : Int), d < 0 →
      generate_time_slots st et d = some []) := by
  refine ⟨?_, ?_, ?_, ?_, fun st et d hd => generate_time_slots_neg st et d hd⟩
  · intro env sid date dw sd h
    unfold get_available_time_slots
    rw [h]
  · intro st et d h
    unfold generate_time_slots
    rcases h with h | h
    · rw [h]
    · rw [h]
      cases parseTime st <;> rfl
  · intro env sid date h
    unfold get_busy_time_intervals
    rw [busyAux_none_of_bad _ h]
    rfl
  · intro slots busy d h
    unfold filter_overlapping_slots
    rw [filterAux_none_of_bad busy d slots h]
    rfl

/-- Refutation of C6 as stated: a `work_schedule` rule whose `start_time`
`"9am"` cannot be parsed produces the normal result `.ok []` — the
`strptime` failure is swallowed, not surfaced. -/
theorem invalid_input_counterexample :
    parseTime "9am" = none
    ∧ get_available_time_slots envBadStart "s1" "06.10.2025" none (some 60) =
        .ok [] := by decide

/-- Closed instance of `invalid_input_amended`: the malformed date
`"31.02.2025"` raises. -/
theorem invalid_input_amended_witness :
    get_available_time_slots envEmpty "s1" "31.02.2025" none none =
      .error () :=
  invalid_input_amended.1 envEmpty "s1" "31.02.2025" none none rfl

/-! ## Round-trip lemmas between `strptime` and `strftime` (for C1) -/

/-- A parsed time of day is below 24·60. -/
theorem parseTime_lt_1440 {s : String} {v : Nat}
    (h : parseTime s = some v) : v < 1440 := by
  unfold parseTime at h
  split at h
  · split at h
    · split at h
      · rename_i hh mm hcond
        cases h
        omega
      · exact absurd h (by simp)
    · exact absurd h (by simp)
  · exact absurd h (by simp)

/-- Rendering then parsing a minute-of-day expressed as hour/minute is the
identity (checked exhaustively over the 24×60 grid). -/
theorem parse_mkTime_hm : ∀ h : Nat, h < 24 → ∀ m : Nat, m < 60 →
    parseTime (mkTime (h * 60 + m)) = some (h * 60 + m) := by decide

/-- Rendering then parsing a minute-of-day is the identity. -/
theorem parse_mkTime (r : Nat) (hr : r < 1440) :
    parseTime (mkTime r) = some r := by
  have h1 : r / 60 < 24 := by omega
  have h2 : r % 60 < 60 := by omega
  have h3 : r / 60 * 60 + r % 60 = r := by omega
  have := parse_mkTime_hm (r / 60) h1 (r % 60) h2
  rw [h3] at this
  exact this

/-- Re-parsing a `strftime("%H:%M")` rendering recovers the minutes modulo
one day. -/
theorem parse_formatTime (e : Int) :
    parseTime (formatTime e) = some (e % 1440).toNat := by
  have h0 : (0 : Int) ≤ e % 1440 := Int.emod_nonneg e (by decide)
  have h1 : e % 1440 < 1440 := Int.emod_lt_of_pos e (by decide)
  exact parse_mkTime (e % 1440).toNat (by omega)

/-- Lemma: `formatTime` of a within-day value round-trips to itself. -/
theorem parse_formatTime_small (t : Nat) (ht : t < 1440) :
    parseTime (formatTime (t : Int)) = some t := by
  rw [parse_formatTime]
  congr 1
  omega

/-! ## The composed overlap filter (C1) -/

/-- Lemma: `List.any` only looks at members. -/
theorem any_congr_mem {α} (l : List α) (p q : α → Bool)
    (h : ∀ a ∈ l, p a = q a) : l.any p = l.any q := by
  induction l with
  | nil => rfl
  | cons x xs ih =>
    simp only [List.any_cons]
    rw [h x (List.mem_cons_self x xs),
      ih (fun a ha => h a (List.mem_cons_of_mem x ha))]

/-- On appointments with parseable times and in-range ends, the
busy-interval loop produces exactly the formatted `(start, start+duration)`
pairs. -/
theorem busyAux_ok (l : List Appointment)
    (h : ∀ a ∈ l, (parseTime a.time).isSome ∧
      dtMin ≤ (timeOf a : Int) + effDuration a ∧
      (timeOf a : Int) + effDuration a ≤ dtMax) :
    busyAux l = some (l.map (fun a =>
      (formatTime (timeOf a : Int),
        formatTime ((timeOf a : Int) + effDuration a)))) := by
  induction l with
  | nil => rfl
  | cons x xs ih =>
    obtain ⟨hsome, hlo, hhi⟩ := h x (List.mem_cons_self x xs)
    obtain ⟨t, ht⟩ := Option.isSome_iff_exists.mp hsome
    have htx : timeOf x = t := by simp [timeOf, ht]
    unfold busyAux
    rw [ht]
    rw [htx] at hlo hhi
    show (if (t : Int) + effDuration x < dtMin ∨ dtMax < (t : Int) + effDuration x
        then none
        else Option.map
          (fun l => (formatTime (t : Int),
            formatTime ((t : Int) + effDuration x)) :: l) (busyAux xs)) = _
    rw [if_neg (by omega :
      ¬((t : Int) + effDuration x < dtMin ∨ dtMax < (t : Int) + effDuration x))]
    rw [ih (fun a ha => h a (List.mem_cons_of_mem x ha))]
    simp [htx]

/-- On a busy list built from formatted appointment intervals, the inner
scan decides exactly "some appointment's wrapped interval meets
`[cs, ce)`". -/
theorem checkBusy_eq_any (apps : List Appointment) (cs : Nat) (ce : Int)
    (h : ∀ a ∈ apps, (parseTime a.time).isSome) :
    checkBusy cs ce (apps.map (fun a =>
      (formatTime (timeOf a : Int),
        formatTime ((timeOf a : Int) + effDuration a)))) =
    some (apps.any (fun a =>
      decide (cs < ((((timeOf a : Int) + effDuration a) % 1440).toNat)) &&
        decide ((timeOf a : Int) < ce))) := by
  induction apps with
  | nil => rfl
  | cons x xs ih =>
    obtain ⟨t, ht⟩ := Option.isSome_iff_exists.mp (h x (List.mem_cons_self x xs))
    have htx : timeOf x = t := by simp [timeOf, ht]
    have htlt : t < 1440 := parseTime_lt_1440 ht
    simp only [List.map_cons]
    unfold checkBusy
    rw [parse_formatTime_small (timeOf x) (by omega),
      parse_formatTime ((timeOf x : Int) + effDuration x)]
    show (if cs < ((((timeOf x : Int) + effDuration x) % 1440).toNat) ∧
          ((timeOf x : Nat) : Int) < ce
        then some true
        else checkBusy cs ce (xs.map (fun a =>
          (formatTime (timeOf a : Int),
            formatTime ((timeOf a : Int) + effDuration a))))) = _
    by_cases hc : cs < ((((timeOf x : Int) + effDuration x) % 1440).toNat) ∧
        ((timeOf x : Nat) : Int) < ce
    · rw [if_pos hc]
      have h1 : decide (cs < ((((timeOf x : Int) + effDuration x) % 1440).toNat))
          = true := decide_eq_true hc.1
      have h2 : decide ((timeOf x : Int) < ce) = true := decide_eq_true hc.2
      simp only [List.any_cons, h1, h2, Bool.true_and, Bool.true_or]
    · rw [if_neg hc]
      rw [ih (fun a ha => h a (List.mem_cons_of_mem x ha))]
      simp only [List.any_cons]
      have hfalse : (decide (cs <
            ((((timeOf x : Int) + effDuration x) % 1440).toNat)) &&
          decide ((timeOf x : Int) < ce)) = false := by
        by_cases hA : cs < ((((timeOf x : Int) + effDuration x) % 1440).toNat)
        · have hB : ¬ ((timeOf x : Nat) : Int) < ce := fun hB => hc ⟨hA, hB⟩
          simp [hB]
        · simp [hA]
      rw [hfalse]
      simp

/-- On candidates with parseable times, a busy list built from formatted
appointment intervals and a sane duration, the filter loop succeeds and
keeps exactly the candidates that meet no appointment's wrapped
interval. -/
theorem filterAux_ok (apps : List Appointment) (d : Int)
    (slots : List String) (hd0 : 0 ≤ d) (hdm : d ≤ 4260186720)
    (hs : ∀ c ∈ slots, (parseTime c).isSome)
    (ha : ∀ a ∈ apps, (parseTime a.time).isSome) :
    filterAux (apps.map (fun a =>
      (formatTime (timeOf a : Int),
        formatTime ((timeOf a : Int) + effDuration a)))) d slots =
    some (slots.filter (fun c =>
      !(apps.any (fun a => overlapsWrapped d a c)))) := by
  induction slots with
  | nil => rfl
  | cons c cs ih =>
    obtain ⟨cm, hcm⟩ :=
      Option.isSome_iff_exists.mp (hs c (List.mem_cons_self c cs))
    have hlt := parseTime_lt_1440 hcm
    have hany : apps.any (fun a =>
          decide (cm < ((((timeOf a : Int) + effDuration a) % 1440).toNat)) &&
            decide ((timeOf a : Int) < (cm : Int) + d)) =
        apps.any (fun a => overlapsWrapped d a c) := by
      refine any_congr_mem _ _ _ ?_
      intro a haM
      obtain ⟨t, ht⟩ := Option.isSome_iff_exists.mp (ha a haM)
      have hta : timeOf a = t := by simp [timeOf, ht]
      have hmodpos : (0 : Int) ≤ ((t : Int) + effDuration a) % 1440 :=
        Int.emod_nonneg _ (by decide)
      unfold overlapsWrapped
      rw [hcm, ht, hta, Bool.and_comm]
      congr 1
      exact decide_eq_decide.mpr (by omega)
    unfold filterAux
    rw [hcm]
    show (if (cm : Int) + d < dtMin ∨ dtMax < (cm : Int) + d then none
      else match checkBusy cm ((cm : Int) + d) (apps.map (fun a =>
          (formatTime (timeOf a : Int),
            formatTime ((timeOf a : Int) + effDuration a)))) with
        | none => none
        | some overlap =>
          (filterAux (apps.map (fun a =>
            (formatTime (timeOf a : Int),
              formatTime ((timeOf a : Int) + effDuration a)))) d cs).map
            (fun l => if overlap then l else c :: l)) = _
    rw [if_neg (by simp only [dtMin, dtMax]; omega :
      ¬((cm : Int) + d < dtMin ∨ dtMax < (cm : Int) + d))]
    rw [checkBusy_eq_any apps cm ((cm : Int) + d) ha, hany]
    show ((filterAux (apps.map (fun a =>
        (formatTime (timeOf a : Int),
          formatTime ((timeOf a : Int) + effDuration a)))) d cs).map
      (fun l => if apps.any (fun a => overlapsWrapped d a c) then l
        else c :: l)) = _
    rw [ih (fun c' hc' => hs c' (List.mem_cons_of_mem c hc'))]
    cases hb : apps.any (fun a => overlapsWrapped d a c) with
    | true => simp [List.filter_cons, hb]
    | false => simp [List.filter_cons, hb]

/-- C1 (amended). The composed overlap filter — busy intervals built by
`_get_busy_time_intervals`, candidates filtered by
`_filter_overlapping_slots` — rejects a candidate `c` iff for some booking
`b` both `b.start < c + d` and `c < (b.start + b.duration) mod 24h` hold:
the booking's end time is reduced modulo one day by the
`strftime("%H:%M")`/`strptime` round-trip, while the candidate's end is
not.  Consequently every candidate that does not overlap any booking's
true (unwrapped) interval is retained, but a booking crossing midnight
blocks less than its true interval (see the counterexample).  `timeOf` and
`effDuration` are the booking's parsed start and effective duration. -/
theorem overlap_filter_amended (env : Env) (sid date : String)
    (slots : List String) (d : Int)
    (hd0 : 0 ≤ d) (hdm : d ≤ 4260186720)
    (hs : ∀ c ∈ slots, (parseTime c).isSome)
    (ha : ∀ a ∈ matchingApps env sid date, (parseTime a.time).isSome ∧
      0 < effDuration a ∧ (timeOf a : Int) + effDuration a ≤ dtMax) :
    filter_overlapping_slots slots (get_busy_time_intervals env sid date) d =
      slots.filter (fun c =>
        !((matchingApps env sid date).any (fun a => overlapsWrapped d a c)))
    ∧ (∀ c ∈ slots, ∀ cm : Nat, parseTime c = some cm →
        (∀ a ∈ matchingApps env sid date,
          (cm : Int) + d ≤ (timeOf a : Int) ∨
            (timeOf a : Int) + effDuration a ≤ (cm : Int)) →
        c ∈ filter_overlapping_slots slots
          (get_busy_time_intervals env sid date) d) := by
  have hbusy : get_busy_time_intervals env sid date =
      (matchingApps env sid date).map (fun a =>
        (formatTime (timeOf a : Int),
          formatTime ((timeOf a : Int) + effDuration a))) := by
    unfold get_busy_time_intervals
    rw [busyAux_ok _ (fun a haM => ⟨(ha a haM).1,
      by have h1 := (ha a haM).2.1; simp only [dtMin]; omega,
      (ha a haM).2.2⟩)]
    rfl
  have hmain : filter_overlapping_slots slots
      (get_busy_time_intervals env sid date) d =
      slots.filter (fun c =>
        !((matchingApps env sid date).any (fun a => overlapsWrapped d a c))) := by
    unfold filter_overlapping_slots
    rw [hbusy, filterAux_ok (matchingApps env sid date) d slots hd0 hdm hs
      (fun a haM => (ha a haM).1)]
    rfl
  refine ⟨hmain, ?_⟩
  intro c hc cm hcm hno
  rw [hmain, List.mem_filter]
  refine ⟨hc, ?_⟩
  have hfalse : (matchingApps env sid date).any
      (fun a => overlapsWrapped d a c) = false := by
    rw [List.any_eq_false]
    intro a haM
    obtain ⟨t, ht⟩ := Option.isSome_iff_exists.mp (ha a haM).1
    have hta : timeOf a = t := by simp [timeOf, ht]
    have heff := (ha a haM).2.1
    unfold overlapsWrapped
    rw [hcm, ht]
    rcases hno a haM with h | h
    · rw [hta] at h
      have hlt : ¬ ((t : Int) < (cm : Int) + d) := by omega
      simp [hlt]
    · rw [hta] at h
      have hlt : ¬ ((cm : Int) < ((t : Int) + effDuration a) % 1440) := by
        omega
      simp [hlt]
  rw [hfalse]
  rfl

/-- Refutation of C1 as stated: the 23:30 booking with duration 60 has
`b.start < c + d` and `c < b.start + b.duration` for the candidate
`c = 23:30`, `d = 60` (both sides are `1410 < 1470`), so the claim demands
rejection — yet the code's busy interval is `("23:30", "00:30")` and the
candidate is retained. -/
theorem overlap_filter_claim_counterexample :
    parseTime "23:30" = some 1410
    ∧ effDuration aMid = 60
    ∧ get_busy_time_intervals envMid "s1" "06.10.2025" = [("23:30", "00:30")]
    ∧ (1410 : Int) < 1410 + 60
    ∧ overlapsWrapped 60 aMid "23:30" = false
    ∧ filter_overlapping_slots ["23:30"]
        (get_busy_time_intervals envMid "s1" "06.10.2025") 60 = ["23:30"] := by
  decide

/-- Closed instance of `overlap_filter_amended`: a 10:00/30-minute booking,
candidates 09:00, 10:00, 14:00, duration 60. -/
theorem overlap_filter_amended_witness :
    filter_overlapping_slots ["09:00", "10:00", "14:00"]
      (get_busy_time_intervals envTen "s1" "06.10.2025") 60 =
    List.filter (fun c => !((matchingApps envTen "s1" "06.10.2025").any
      (fun a => overlapsWrapped 60 a c))) ["09:00", "10:00", "14:00"] :=
  (overlap_filter_amended envTen "s1" "06.10.2025" ["09:00", "10:00", "14:00"]
    60 (by decide) (by decide) (by decide) (by decide)).1

end Naznach
